import Mathlib

/-!
Verification of the triage temporal state materialization engine and model
selectors.

The `StateTableGenerator` (interval and event modes) is exercised by
`tests/test_state_table_generators.py`; its implementation module is not in
the tree, so the generator below is modelled from the specification, with the
row-production rule fixed by the expected outputs asserted in the tests.
`model_selectors.py` is present and embedded directly.

Dates and timestamps are embedded as integers (a `datetime(y, m, d)` is
written `y*10000 + m*100 + d`, which preserves ordering).
-/

/-- A helper mirroring SQL `SELECT DISTINCT`: removes duplicates, keeping the
first occurrence of each element. -/
def distinctFirst {α : Type} [DecidableEq α] (l : List α) : List α :=
  go l []
where
  go : List α → List α → List α
  | [], _ => []
  | x :: xs, seen => if x ∈ seen then go xs seen else x :: go xs (x :: seen)

/-- A row of the dense interval source table
`(entity_id, state, start_time, end_time)`: the entity held state `state`
for `[start_time, end_time)`. -/
structure IntervalFact where
  entity_id : Int
  state : String
  start_time : Int
  end_time : Int
deriving DecidableEq, Repr

/-- A row of the events source table `(entity_id, event_time, outcome)`. -/
structure EventFact where
  entity_id : Int
  event_time : Int
  outcome : Bool
deriving DecidableEq, Repr

/-- The source configuration of a `StateTableGenerator`: either a dense
interval table (`dense_state_table=...`) or an events table
(`events_table=...`). -/
inductive SourceConfig where
  | dense (facts : List IntervalFact)
  | events (facts : List EventFact)
deriving DecidableEq, Repr

/-- Error kinds of the generator. `emptySource` models `EmptySourceError`,
`emptyInput` the empty as-of-dates failure; both are surfaced as
`ValueError`-class conditions. `storage` models a propagated storage error,
which is not a `ValueError`. -/
inductive TableError where
  | emptySource
  | emptyInput
  | storage
deriving DecidableEq, Repr

/-- Whether a `TableError` is a `ValueError`-class (invalid input) condition. -/
def TableError.isValueError : TableError → Bool
  | .emptySource => true
  | .emptyInput => true
  | .storage => false

/-- One row of the output sparse table: the entity, the as-of date, and one
named boolean per tracked state (interval mode: one per distinct state label;
event mode: the single `active` column). -/
structure SparseRow where
  entity_id : Int
  as_of_date : Int
  states : List (String × Bool)
deriving DecidableEq, Repr

/-- The output sparse table: its rows and the columns it is indexed on. -/
structure SparseTable where
  rows : List SparseRow
  indexes : List String
deriving DecidableEq, Repr

/-- The distinct state labels present in the dense source, in first-seen
order; these become the boolean columns of the output. -/
def stateLabels (facts : List IntervalFact) : List String :=
  distinctFirst (facts.map (·.state))

/-- The distinct entity ids present in the dense source. -/
def denseEntityIds (facts : List IntervalFact) : List Int :=
  distinctFirst (facts.map (·.entity_id))

/-- The distinct entity ids present in the events source. -/
def eventEntityIds (facts : List EventFact) : List Int :=
  distinctFirst (facts.map (·.entity_id))

/-- Interval containment: entity `e` is in state `l` on date `d` iff some
interval fact for `e` with label `l` satisfies `start_time <= d < end_time`. -/
def inStateOn (facts : List IntervalFact) (e : Int) (l : String) (d : Int) : Bool :=
  facts.any (fun f =>
    f.entity_id == e && f.state == l && decide (f.start_time ≤ d) && decide (d < f.end_time))

/-- Event-mode accumulation: entity `e` is active on date `d` iff some event
fact for `e` with `outcome = true` has `event_time <= d`. -/
def activeOn (facts : List EventFact) (e : Int) (d : Int) : Bool :=
  facts.any (fun f => f.entity_id == e && f.outcome && decide (f.event_time ≤ d))

/-- Modelled from the spec: interval-mode row production of the missing
`StateTableGenerator._sparse_table_query_from_dense`. Per the test
`test_sparse_state_table_generator`, a row is emitted for an
(entity, as-of date) pair only when the entity is in at least one state on
that date (the dense source is joined against the dates on containment, so
all-false combinations produce no row); each emitted row carries one boolean
per distinct state label. Duplicate as-of dates collapse (SQL `GROUP BY`). -/
def denseSparseRows (facts : List IntervalFact) (dates : List Int) : List SparseRow :=
  (denseEntityIds facts).flatMap (fun e =>
    (distinctFirst dates).filterMap (fun d =>
      if ((stateLabels facts).map (fun l => (l, inStateOn facts e l d))).any (fun p => p.2)
      then some ⟨e, d, (stateLabels facts).map (fun l => (l, inStateOn facts e l d))⟩
      else none))

/-- Modelled from the spec: event-mode row production of the missing
`StateTableGenerator._sparse_table_query_from_events`. One row per
(distinct entity, as-of date) pair with the single `active` boolean given by
the monotonic-OR rule. Duplicate as-of dates collapse (SQL `GROUP BY`). -/
def eventSparseRows (facts : List EventFact) (dates : List Int) : List SparseRow :=
  (eventEntityIds facts).flatMap (fun e =>
    (distinctFirst dates).map (fun d => ⟨e, d, [("active", activeOn facts e d)]⟩))

/-- Modelled from the spec: the index builder (§4.4) adds indexes on
`entity_id` and `as_of_date` after population. -/
def addIndexes (t : SparseTable) : SparseTable :=
  { t with indexes := t.indexes ++ ["entity_id", "as_of_date"] }

/-- Modelled from the spec: the missing
`StateTableGenerator.generate_sparse_table`. The source reader fails with
`EmptySourceError` on an empty source; an empty as-of-dates sequence is the
other invalid-input failure; otherwise the sparse table is populated and then
indexed. -/
def generate_sparse_table (cfg : SourceConfig) (as_of_dates : List Int) :
    Except TableError SparseTable :=
  match cfg with
  | .dense facts =>
    if facts.isEmpty then .error .emptySource
    else if as_of_dates.isEmpty then .error .emptyInput
    else .ok (addIndexes ⟨denseSparseRows facts as_of_dates, []⟩)
  | .events facts =>
    if facts.isEmpty then .error .emptySource
    else if as_of_dates.isEmpty then .error .emptyInput
    else .ok (addIndexes ⟨eventSparseRows facts as_of_dates, []⟩)

/-- Modelled from the spec: a run of `generate_sparse_table` against
persistent storage holding at most one sparse table per name. A successful
run replaces the stored table; a failed run leaves storage unchanged
(both precondition checks happen before any table is created). -/
def run_generate (cfg : SourceConfig) (as_of_dates : List Int)
    (storage : Option SparseTable) : Except TableError Unit × Option SparseTable :=
  match generate_sparse_table cfg as_of_dates with
  | .ok t => (.ok (), some t)
  | .error e => (.error e, storage)

/-- The Scenario A dense input of `test_sparse_state_table_generator`. -/
def scenarioA_facts : List IntervalFact :=
  [⟨5, "permitted", 20160101, 20160601⟩,
   ⟨6, "permitted", 20160205, 20160505⟩,
   ⟨1, "injail", 20140707, 20140715⟩,
   ⟨1, "injail", 20160307, 20160402⟩]

/-- The Scenario A as-of dates: the first of each month, Jan–Jun 2016. -/
def scenarioA_dates : List Int :=
  [20160101, 20160201, 20160301, 20160401, 20160501, 20160601]

/-- The Scenario C events input of `test_sparse_table_generator_from_events`. -/
def scenarioC_facts : List EventFact :=
  [⟨1, 20160101, true⟩, ⟨1, 20160401, false⟩, ⟨1, 20160301, true⟩,
   ⟨2, 20160101, false⟩, ⟨2, 20160101, true⟩,
   ⟨3, 20160101, true⟩,
   ⟨5, 20160101, true⟩, ⟨5, 20160101, true⟩]

/-- The rows asserted by `test_sparse_state_table_generator`, in the model's
emission order (entities in first-seen source order): entity 5 at the
January–May dates and entity 6 at the March–May dates with
`permitted=true, injail=false`, and entity 1 only at 2016-04-01 with
`injail=true, permitted=false`. -/
def scenarioA_expected : List SparseRow :=
  [⟨5, 20160101, [("permitted", true), ("injail", false)]⟩,
   ⟨5, 20160201, [("permitted", true), ("injail", false)]⟩,
   ⟨5, 20160301, [("permitted", true), ("injail", false)]⟩,
   ⟨5, 20160401, [("permitted", true), ("injail", false)]⟩,
   ⟨5, 20160501, [("permitted", true), ("injail", false)]⟩,
   ⟨6, 20160301, [("permitted", true), ("injail", false)]⟩,
   ⟨6, 20160401, [("permitted", true), ("injail", false)]⟩,
   ⟨6, 20160501, [("permitted", true), ("injail", false)]⟩,
   ⟨1, 20160401, [("permitted", false), ("injail", true)]⟩]

/-- C4: on the Scenario A input with monthly as-of dates Jan–Jun 2016, the
built sparse table contains exactly the expected rows — entity 1 only at
2016-04-01 with `injail` set, entity 5 at Jan–May and entity 6 at Mar–May
with `permitted` set — and no other rows. -/
theorem scenarioA_output :
    generate_sparse_table (.dense scenarioA_facts) scenarioA_dates =
      .ok ⟨scenarioA_expected, ["entity_id", "as_of_date"]⟩ := by
  rfl

/-- C5: for an empty source — dense or event mode — and any non-empty
as-of-date list, `generate_sparse_table` fails with the empty-source error,
which is a `ValueError`-class condition, and a run leaves storage unchanged
(no usable output table is created). -/
theorem empty_source_fails (dates : List Int) (storage : Option SparseTable)
    (hne : dates ≠ []) :
    run_generate (.dense []) dates storage = (.error .emptySource, storage) ∧
    run_generate (.events []) dates storage = (.error .emptySource, storage) ∧
    TableError.emptySource.isValueError = true := by
  refine ⟨?_, ?_, rfl⟩ <;> simp [run_generate, generate_sparse_table]

theorem empty_source_fails_witness :
    ([20160101, 20160201] : List Int) ≠ [] ∧
    (run_generate (.dense []) [20160101, 20160201] none = (.error .emptySource, none) ∧
     run_generate (.events []) [20160101, 20160201] none = (.error .emptySource, none) ∧
     TableError.emptySource.isValueError = true) :=
  ⟨by decide, empty_source_fails [20160101, 20160201] none (by decide)⟩

/-- C8: for an empty as-of-dates sequence, a run of `generate_sparse_table`
fails with a `ValueError`-class invalid-input error and leaves the persistent
storage state unchanged — no output table is created. -/
theorem empty_dates_fails (cfg : SourceConfig) (dates : List Int)
    (storage : Option SparseTable) (hd : dates = []) :
    ∃ e : TableError,
      run_generate cfg dates storage = (.error e, storage) ∧ e.isValueError = true := by
  subst hd
  cases cfg with
  | dense facts =>
    cases facts with
    | nil => exact ⟨.emptySource, by simp [run_generate, generate_sparse_table], rfl⟩
    | cons f fs => exact ⟨.emptyInput, by simp [run_generate, generate_sparse_table], rfl⟩
  | events facts =>
    cases facts with
    | nil => exact ⟨.emptySource, by simp [run_generate, generate_sparse_table], rfl⟩
    | cons f fs => exact ⟨.emptyInput, by simp [run_generate, generate_sparse_table], rfl⟩

theorem empty_dates_fails_witness :
    ([] : List Int) = [] ∧
    ∃ e : TableError,
      run_generate (.dense scenarioA_facts) [] none = (.error e, none) ∧
      e.isValueError = true :=
  ⟨rfl, empty_dates_fails (.dense scenarioA_facts) [] none rfl⟩

/-- C7: every successful run of `generate_sparse_table`, in either mode,
produces a table indexed on both `entity_id` and `as_of_date`. -/
theorem indexes_exist (cfg : SourceConfig) (dates : List Int) (t : SparseTable)
    (h : generate_sparse_table cfg dates = .ok t) :
    "entity_id" ∈ t.indexes ∧ "as_of_date" ∈ t.indexes := by
  cases cfg with
  | dense facts =>
    by_cases hf : facts.isEmpty <;> by_cases hd : dates.isEmpty <;>
      simp [generate_sparse_table, hf, hd, addIndexes] at h <;>
      simp [← h]
  | events facts =>
    by_cases hf : facts.isEmpty <;> by_cases hd : dates.isEmpty <;>
      simp [generate_sparse_table, hf, hd, addIndexes] at h <;>
      simp [← h]

theorem indexes_exist_witness :
    generate_sparse_table (.dense scenarioA_facts) scenarioA_dates =
      .ok ⟨scenarioA_expected, ["entity_id", "as_of_date"]⟩ ∧
    ("entity_id" ∈ (SparseTable.mk scenarioA_expected ["entity_id", "as_of_date"]).indexes ∧
     "as_of_date" ∈ (SparseTable.mk scenarioA_expected ["entity_id", "as_of_date"]).indexes) :=
  ⟨by rfl, indexes_exist (.dense scenarioA_facts) scenarioA_dates _ (by rfl)⟩

theorem distinctFirst_go_mem {α : Type} [DecidableEq α] (l : List α) :
    ∀ (seen : List α) (x : α), x ∈ distinctFirst.go l seen ↔ x ∈ l ∧ x ∉ seen := by
  induction l with
  | nil => intro seen x; simp [distinctFirst.go]
  | cons y ys ih =>
    intro seen x
    by_cases hy : y ∈ seen
    · rw [distinctFirst.go, if_pos hy, ih]
      constructor
      · rintro ⟨hx, hs⟩; exact ⟨List.mem_cons_of_mem _ hx, hs⟩
      · rintro ⟨hx, hs⟩
        rcases List.mem_cons.mp hx with rfl | hx
        · exact absurd hy hs
        · exact ⟨hx, hs⟩
    · rw [distinctFirst.go, if_neg hy]
      constructor
      · intro hx
        rcases List.mem_cons.mp hx with rfl | hx
        · exact ⟨List.mem_cons_self _ _, hy⟩
        · rcases (ih _ _).mp hx with ⟨hys, hns⟩
          refine ⟨List.mem_cons_of_mem _ hys, fun hs => hns (List.mem_cons_of_mem _ hs)⟩
      · rintro ⟨hx, hs⟩
        rcases List.mem_cons.mp hx with rfl | hx
        · exact List.mem_cons_self _ _
        · by_cases hxy : x = y
          · subst hxy; exact List.mem_cons_self _ _
          · exact List.mem_cons_of_mem _ ((ih _ _).mpr
              ⟨hx, by simp [List.mem_cons, hxy, hs]⟩)

theorem distinctFirst_mem {α : Type} [DecidableEq α] (l : List α) (x : α) :
    x ∈ distinctFirst l ↔ x ∈ l := by
  rw [distinctFirst, distinctFirst_go_mem]
  simp

theorem distinctFirst_go_nodup {α : Type} [DecidableEq α] (l : List α) :
    ∀ seen : List α, (distinctFirst.go l seen).Nodup := by
  induction l with
  | nil => intro seen; simp [distinctFirst.go]
  | cons y ys ih =>
    intro seen
    by_cases hy : y ∈ seen
    · rw [distinctFirst.go, if_pos hy]; exact ih seen
    · rw [distinctFirst.go, if_neg hy]
      refine List.nodup_cons.mpr ⟨fun hmem => ?_, ih _⟩
      exact ((distinctFirst_go_mem ys _ y).mp hmem).2 (List.mem_cons_self _ _)

theorem distinctFirst_nodup {α : Type} [DecidableEq α] (l : List α) :
    (distinctFirst l).Nodup :=
  distinctFirst_go_nodup l []

theorem inStateOn_iff (facts : List IntervalFact) (e : Int) (l : String) (d : Int) :
    inStateOn facts e l d = true ↔
      ∃ f ∈ facts, f.entity_id = e ∧ f.state = l ∧ f.start_time ≤ d ∧ d < f.end_time := by
  simp [inStateOn, List.any_eq_true, Bool.and_eq_true, and_assoc]

theorem activeOn_iff (facts : List EventFact) (e : Int) (d : Int) :
    activeOn facts e d = true ↔
      ∃ f ∈ facts, f.entity_id = e ∧ f.outcome = true ∧ f.event_time ≤ d := by
  simp [activeOn, List.any_eq_true, Bool.and_eq_true, and_assoc]

theorem gen_ok_dense (facts : List IntervalFact) (dates : List Int) (t : SparseTable)
    (h : generate_sparse_table (.dense facts) dates = .ok t) :
    t = ⟨denseSparseRows facts dates, ["entity_id", "as_of_date"]⟩ := by
  by_cases hf : facts.isEmpty <;> by_cases hd : dates.isEmpty <;>
    simp [generate_sparse_table, hf, hd, addIndexes] at h <;> simp [← h]

theorem gen_ok_events (facts : List EventFact) (dates : List Int) (t : SparseTable)
    (h : generate_sparse_table (.events facts) dates = .ok t) :
    t = ⟨eventSparseRows facts dates, ["entity_id", "as_of_date"]⟩ := by
  by_cases hf : facts.isEmpty <;> by_cases hd : dates.isEmpty <;>
    simp [generate_sparse_table, hf, hd, addIndexes] at h <;> simp [← h]

/-- C1: in interval mode, in every row of a successfully built sparse table,
the boolean stored for a state label is true iff some interval fact for that
row's entity with that label satisfies
`interval_start <= as_of_date < interval_end` (half-open containment; any one
of several overlapping same-label intervals suffices). -/
theorem interval_containment_correct (facts : List IntervalFact) (dates : List Int)
    (t : SparseTable) (h : generate_sparse_table (.dense facts) dates = .ok t) :
    ∀ row ∈ t.rows, ∀ l b, (l, b) ∈ row.states →
      (b = true ↔ ∃ f ∈ facts, f.entity_id = row.entity_id ∧ f.state = l ∧
        f.start_time ≤ row.as_of_date ∧ row.as_of_date < f.end_time) := by
  intro row hrow l b hlb
  rw [gen_ok_dense facts dates t h] at hrow
  simp only [denseSparseRows, List.mem_flatMap, List.mem_filterMap] at hrow
  obtain ⟨e, _, d, _, hif⟩ := hrow
  split at hif
  · rcases Option.some.inj hif with rfl
    simp only [List.mem_map] at hlb
    obtain ⟨l', _, heq⟩ := hlb
    rw [Prod.mk.injEq] at heq
    obtain ⟨rfl, rfl⟩ := heq
    exact inStateOn_iff facts e _ d
  · exact absurd hif (by simp)

theorem interval_containment_correct_witness :
    generate_sparse_table (.dense scenarioA_facts) scenarioA_dates =
      .ok ⟨scenarioA_expected, ["entity_id", "as_of_date"]⟩ ∧
    (∀ row ∈ (SparseTable.mk scenarioA_expected ["entity_id", "as_of_date"]).rows,
      ∀ l b, (l, b) ∈ row.states →
      (b = true ↔ ∃ f ∈ scenarioA_facts, f.entity_id = row.entity_id ∧ f.state = l ∧
        f.start_time ≤ row.as_of_date ∧ row.as_of_date < f.end_time)) :=
  ⟨by rfl, interval_containment_correct scenarioA_facts scenarioA_dates _ (by rfl)⟩

/-- C6: in event mode, every row of a successfully built sparse table carries
exactly the `active` boolean, which is true iff some event fact for that
row's entity with `outcome = true` has `event_time <= as_of_date`; a
false-outcome event never clears it. -/
theorem event_active_iff (facts : List EventFact) (dates : List Int)
    (t : SparseTable) (h : generate_sparse_table (.events facts) dates = .ok t) :
    ∀ row ∈ t.rows, ∃ b, row.states = [("active", b)] ∧
      (b = true ↔ ∃ f ∈ facts, f.entity_id = row.entity_id ∧ f.outcome = true ∧
        f.event_time ≤ row.as_of_date) := by
  intro row hrow
  rw [gen_ok_events facts dates t h] at hrow
  simp only [eventSparseRows, List.mem_flatMap, List.mem_map] at hrow
  obtain ⟨e, _, d, _, heq⟩ := hrow
  subst heq
  exact ⟨activeOn facts e d, rfl, activeOn_iff facts e d⟩

theorem event_active_iff_witness :
    generate_sparse_table (.events scenarioC_facts) scenarioA_dates =
      .ok ⟨eventSparseRows scenarioC_facts scenarioA_dates, ["entity_id", "as_of_date"]⟩ ∧
    (∀ row ∈ (SparseTable.mk (eventSparseRows scenarioC_facts scenarioA_dates)
        ["entity_id", "as_of_date"]).rows,
      ∃ b, row.states = [("active", b)] ∧
      (b = true ↔ ∃ f ∈ scenarioC_facts, f.entity_id = row.entity_id ∧ f.outcome = true ∧
        f.event_time ≤ row.as_of_date)) :=
  ⟨by rfl, event_active_iff scenarioC_facts scenarioA_dates _ (by rfl)⟩

/-- C2: in event mode, once a true-outcome event exists at or before an as-of
date `d1` for an entity, the built table holds an `active = true` row for
that entity at `d1` and at every later supplied as-of date `d2`; later
false-outcome events never clear the flag. -/
theorem event_monotonicity (facts : List EventFact) (dates : List Int)
    (t : SparseTable) (e d1 d2 : Int)
    (h : generate_sparse_table (.events facts) dates = .ok t)
    (h1 : d1 ∈ dates) (h2 : d2 ∈ dates) (h12 : d1 ≤ d2)
    (hev : ∃ f ∈ facts, f.entity_id = e ∧ f.outcome = true ∧ f.event_time ≤ d1) :
    (⟨e, d1, [("active", true)]⟩ : SparseRow) ∈ t.rows ∧
    (⟨e, d2, [("active", true)]⟩ : SparseRow) ∈ t.rows := by
  obtain ⟨f, hf, hfe, hfo, hft⟩ := hev
  rw [gen_ok_events facts dates t h]
  have hmem : e ∈ eventEntityIds facts := by
    rw [eventEntityIds, distinctFirst_mem]
    exact List.mem_map.mpr ⟨f, hf, hfe⟩
  have ha1 : activeOn facts e d1 = true :=
    (activeOn_iff facts e d1).mpr ⟨f, hf, hfe, hfo, hft⟩
  have ha2 : activeOn facts e d2 = true :=
    (activeOn_iff facts e d2).mpr ⟨f, hf, hfe, hfo, le_trans hft h12⟩
  constructor
  · simp only [eventSparseRows, List.mem_flatMap, List.mem_map]
    exact ⟨e, hmem, d1, (distinctFirst_mem dates d1).mpr h1, by rw [ha1]⟩
  · simp only [eventSparseRows, List.mem_flatMap, List.mem_map]
    exact ⟨e, hmem, d2, (distinctFirst_mem dates d2).mpr h2, by rw [ha2]⟩

theorem event_monotonicity_witness :
    generate_sparse_table (.events scenarioC_facts) scenarioA_dates =
      .ok ⟨eventSparseRows scenarioC_facts scenarioA_dates, ["entity_id", "as_of_date"]⟩ ∧
    (20160301 : Int) ∈ scenarioA_dates ∧ (20160401 : Int) ∈ scenarioA_dates ∧
    (20160301 : Int) ≤ 20160401 ∧
    (∃ f ∈ scenarioC_facts, f.entity_id = 1 ∧ f.outcome = true ∧ f.event_time ≤ 20160301) ∧
    ((⟨1, 20160301, [("active", true)]⟩ : SparseRow) ∈
        (SparseTable.mk (eventSparseRows scenarioC_facts scenarioA_dates)
          ["entity_id", "as_of_date"]).rows ∧
     (⟨1, 20160401, [("active", true)]⟩ : SparseRow) ∈
        (SparseTable.mk (eventSparseRows scenarioC_facts scenarioA_dates)
          ["entity_id", "as_of_date"]).rows) :=
  ⟨by rfl, by decide, by decide, by decide, by decide,
   event_monotonicity scenarioC_facts scenarioA_dates _ 1 20160301 20160401
     (by rfl) (by decide) (by decide) (by decide) (by decide)⟩

/-- The row-selection predicate for one (entity, as-of date) pair. -/
def rowFor (e d : Int) : SparseRow → Bool :=
  fun r => r.entity_id == e && r.as_of_date == d

theorem countP_map_dates (ddates : List Int) (e' : Int)
    (g : Int → List (String × Bool)) (e d : Int) (hnd : ddates.Nodup) :
    ((ddates.map (fun d' => (⟨e', d', g d'⟩ : SparseRow))).countP (rowFor e d)) =
      if e' = e ∧ d ∈ ddates then 1 else 0 := by
  induction ddates with
  | nil => simp
  | cons d0 rest ih =>
    rcases List.nodup_cons.mp hnd with ⟨hd0, hrest⟩
    rw [List.map_cons, List.countP_cons, ih hrest]
    by_cases he : e' = e
    · subst he
      by_cases hdd : d0 = d
      · subst hdd
        simp [rowFor, hd0]
      · simp only [rowFor]
        simp [hdd, Ne.symm hdd]
    · simp [rowFor, he, fun h : e' = e => he h]

theorem countP_filterMap_dates (ddates : List Int) (e' : Int)
    (g : Int → List (String × Bool)) (c : Int → Bool) (e d : Int) (hnd : ddates.Nodup) :
    ((ddates.filterMap (fun d' =>
        if c d' then some (⟨e', d', g d'⟩ : SparseRow) else none)).countP (rowFor e d)) =
      if e' = e ∧ d ∈ ddates ∧ c d = true then 1 else 0 := by
  induction ddates with
  | nil => simp
  | cons d0 rest ih =>
    rcases List.nodup_cons.mp hnd with ⟨hd0, hrest⟩
    rw [List.filterMap_cons]
    by_cases hc : c d0
    · rw [if_pos hc, List.countP_cons, ih hrest]
      by_cases he : e' = e
      · subst he
        by_cases hdd : d0 = d
        · subst hdd
          simp [rowFor, hd0, hc]
        · simp only [rowFor]
          simp [hdd, Ne.symm hdd]
      · simp [rowFor, he, fun h : e' = e => he h]
    · rw [if_neg hc, ih hrest]
      by_cases he : e' = e
      · subst he
        by_cases hdd : d0 = d
        · subst hdd
          simp [hc]
        · simp [Ne.symm hdd]
      · simp [he]

theorem countP_flatMap_entities (ents : List Int) (F : Int → List SparseRow)
    (e d : Int) (hnd : ents.Nodup)
    (hF : ∀ e', ∀ r ∈ F e', r.entity_id = e') :
    ((ents.flatMap F).countP (rowFor e d)) =
      if e ∈ ents then (F e).countP (rowFor e d) else 0 := by
  induction ents with
  | nil => simp
  | cons e0 rest ih =>
    rcases List.nodup_cons.mp hnd with ⟨he0, hrest⟩
    rw [List.flatMap_cons, List.countP_append, ih hrest]
    by_cases he : e0 = e
    · subst he
      have : e0 ∉ rest := he0
      simp only [this, if_neg, List.mem_cons, true_or, if_pos]
      simp [this]
    · have hz : (F e0).countP (rowFor e d) = 0 := by
        rw [List.countP_eq_zero]
        intro r hr
        have := hF e0 r hr
        simp [rowFor, this, he]
      rw [hz]
      by_cases hm : e ∈ rest
      · simp [hm, he]
      · simp [hm, Ne.symm he]

/-- C3 fails as stated: in Scenario A, entity 5 appears in the source and
2016-06-01 is a supplied as-of date, yet the built table has zero rows (not
one) for the pair (5, 2016-06-01) — interval mode emits no row for a pair at
which every state boolean is false. -/
theorem cross_product_counterexample :
    (5 : Int) ∈ scenarioA_facts.map (·.entity_id) ∧
    (20160601 : Int) ∈ scenarioA_dates ∧
    (generate_sparse_table (.dense scenarioA_facts) scenarioA_dates).toOption.map
      (fun t => t.rows.countP (rowFor 5 20160601)) = some 0 :=
  ⟨by decide, by decide, by rfl⟩

/-- The amended per-pair row count: one row when the entity appears in the
source and the date is supplied — in interval mode additionally only when at
least one state boolean is true — and zero rows otherwise. -/
def expectedRowCount (cfg : SourceConfig) (dates : List Int) (e d : Int) : Nat :=
  match cfg with
  | .dense facts =>
      if e ∈ facts.map (·.entity_id) ∧ d ∈ dates ∧
          (stateLabels facts).any (fun l => inStateOn facts e l d) = true
      then 1 else 0
  | .events facts =>
      if e ∈ facts.map (·.entity_id) ∧ d ∈ dates then 1 else 0

/-- C3 amended: a successfully built table has exactly one row for
(entity, as-of date) when the entity appears in the source, the date is in
the caller's list, and — in interval mode — the entity is in at least one
state on that date; it has no row otherwise (interval mode emits no
all-false rows). -/
theorem row_count_amended (cfg : SourceConfig) (dates : List Int) (t : SparseTable)
    (h : generate_sparse_table cfg dates = .ok t) (e d : Int) :
    t.rows.countP (rowFor e d) = expectedRowCount cfg dates e d := by
  cases cfg with
  | dense facts =>
    rw [expectedRowCount, gen_ok_dense facts dates t h]
    show (denseSparseRows facts dates).countP (rowFor e d) = _
    rw [denseSparseRows]
    rw [countP_flatMap_entities (denseEntityIds facts) _ e d (distinctFirst_nodup _)
      (by
        intro e' r hr
        simp only [List.mem_filterMap] at hr
        obtain ⟨d', _, hif⟩ := hr
        split at hif
        · cases Option.some.inj hif; rfl
        · exact absurd hif (by simp))]
    by_cases hE : e ∈ denseEntityIds facts
    · rw [if_pos hE]
      rw [countP_filterMap_dates (distinctFirst dates) e _ _ e d (distinctFirst_nodup _)]
      have hE' : e ∈ facts.map (·.entity_id) := (distinctFirst_mem _ _).mp hE
      have hany : (((stateLabels facts).map
            (fun l => (l, inStateOn facts e l d))).any (fun p => p.2)) =
          (stateLabels facts).any (fun l => inStateOn facts e l d) := by
        induction (stateLabels facts) with
        | nil => rfl
        | cons a tl ih => simp only [List.map_cons, List.any_cons, ih]
      simp only [hany, distinctFirst_mem, hE', true_and]
    · rw [if_neg hE]
      have hE' : e ∉ facts.map (·.entity_id) := fun hc => hE ((distinctFirst_mem _ _).mpr hc)
      simp [hE']
  | events facts =>
    rw [expectedRowCount, gen_ok_events facts dates t h]
    show (eventSparseRows facts dates).countP (rowFor e d) = _
    rw [eventSparseRows]
    rw [countP_flatMap_entities (eventEntityIds facts) _ e d (distinctFirst_nodup _)
      (by
        intro e' r hr
        simp only [List.mem_map] at hr
        obtain ⟨d', _, heq⟩ := hr
        subst heq; rfl)]
    by_cases hE : e ∈ eventEntityIds facts
    · rw [if_pos hE]
      rw [countP_map_dates (distinctFirst dates) e _ e d (distinctFirst_nodup _)]
      have hE' : e ∈ facts.map (·.entity_id) := (distinctFirst_mem _ _).mp hE
      simp only [distinctFirst_mem, hE', true_and]
    · rw [if_neg hE]
      have hE' : e ∉ facts.map (·.entity_id) := fun hc => hE ((distinctFirst_mem _ _).mpr hc)
      simp [hE']

theorem row_count_amended_witness :
    generate_sparse_table (.dense scenarioA_facts) scenarioA_dates =
      .ok ⟨scenarioA_expected, ["entity_id", "as_of_date"]⟩ ∧
    (SparseTable.mk scenarioA_expected ["entity_id", "as_of_date"]).rows.countP
        (rowFor 5 20160601) =
      expectedRowCount (.dense scenarioA_facts) scenarioA_dates 5 20160601 :=
  ⟨by rfl, row_count_amended (.dense scenarioA_facts) scenarioA_dates _ (by rfl) 5 20160601⟩

/-- Python's builtin `max` over a list of integers: scans left to right,
replacing the current value whenever a strictly larger item appears; `none`
models the `ValueError` Python raises on an empty sequence. -/
def pyMax : List Int → Option Int
  | [] => none
  | x :: xs => some (xs.foldl (fun a b => if a < b then b else a) x)

/-- `choose_highest_model_group_id` from `model_selectors.py`: returns
`max(model_group_ids)`, ignoring `db_engine`, `train_end_date`, `metric` and
`metric_param`. -/
def choose_highest_model_group_id {α β γ δ : Type} (db_engine : α)
    (model_group_ids : List Int) (train_end_date : β) (metric : γ)
    (metric_param : δ) : Option Int :=
  pyMax model_group_ids

theorem pyMax_foldl_spec (xs : List Int) :
    ∀ x : Int,
      (xs.foldl (fun a b => if a < b then b else a) x) ∈ x :: xs ∧
      x ≤ xs.foldl (fun a b => if a < b then b else a) x ∧
      ∀ y ∈ xs, y ≤ xs.foldl (fun a b => if a < b then b else a) x := by
  induction xs with
  | nil => intro x; exact ⟨List.mem_cons_self _ _, le_refl x, by simp⟩
  | cons b rest ih =>
    intro x
    rcases ih (if x < b then b else x) with ⟨hmem, hle, hall⟩
    have hxf : x ≤ (if x < b then b else x) := by
      split <;> omega
    have hbf : b ≤ (if x < b then b else x) := by
      split <;> omega
    refine ⟨?_, le_trans hxf hle, ?_⟩
    · rcases List.mem_cons.mp hmem with heq | hr
      · rw [List.foldl_cons, heq]
        split
        · exact List.mem_cons_of_mem _ (List.mem_cons_self _ _)
        · exact List.mem_cons_self _ _
      · exact List.mem_cons_of_mem _ (List.mem_cons_of_mem _ hr)
    · intro y hy
      rcases List.mem_cons.mp hy with rfl | hr
      · exact le_trans hbf hle
      · exact hall y hr

theorem pyMax_spec (l : List Int) (hne : l ≠ []) :
    ∃ M, pyMax l = some M ∧ M ∈ l ∧ ∀ x ∈ l, x ≤ M := by
  cases l with
  | nil => exact absurd rfl hne
  | cons x xs =>
    rcases pyMax_foldl_spec xs x with ⟨hmem, hle, hall⟩
    refine ⟨_, rfl, hmem, ?_⟩
    intro y hy
    rcases List.mem_cons.mp hy with rfl | hr
    · exact hle
    · exact hall y hr

/-- C9: for a non-empty `model_group_ids`, `choose_highest_model_group_id`
returns `max(model_group_ids)` — a member of the list that every member is
at most — and the result depends only on `model_group_ids`: two calls
differing in `db_engine`, `train_end_date`, `metric` and `metric_param`
return the same value. -/
theorem choose_highest_correct {α β γ δ α' β' γ' δ' : Type}
    (db1 : α) (db2 : α') (ids : List Int) (t1 : β) (t2 : β')
    (m1 : γ) (m2 : γ') (p1 : δ) (p2 : δ') (hne : ids ≠ []) :
    (∃ M, choose_highest_model_group_id db1 ids t1 m1 p1 = some M ∧
      M ∈ ids ∧ ∀ x ∈ ids, x ≤ M) ∧
    choose_highest_model_group_id db1 ids t1 m1 p1 =
      choose_highest_model_group_id db2 ids t2 m2 p2 :=
  ⟨pyMax_spec ids hne, rfl⟩

theorem choose_highest_correct_witness :
    ([3, 7, 5] : List Int) ≠ [] ∧
    ((∃ M, choose_highest_model_group_id (0 : Nat) [3, 7, 5] "2016-01-01"
        "precision" "300_abs" = some M ∧ M ∈ ([3, 7, 5] : List Int) ∧
        ∀ x ∈ ([3, 7, 5] : List Int), x ≤ M) ∧
     choose_highest_model_group_id (0 : Nat) [3, 7, 5] "2016-01-01"
        "precision" "300_abs" =
       choose_highest_model_group_id "other_engine" [3, 7, 5] (42 : Int)
        "recall" (1 : Nat)) :=
  ⟨by decide,
   choose_highest_correct (0 : Nat) "other_engine" [3, 7, 5] "2016-01-01" (42 : Int)
     "precision" "recall" "300_abs" (1 : Nat) (by decide)⟩

/-- A Python value held in a metric-configuration dict: a string, a number,
or the data frame produced by `get_best_dist` (kept abstract as its cells). -/
inductive PyVal where
  | str (s : String)
  | int (n : Int)
  | df (cells : List (String × Int))
deriving DecidableEq, Repr

/-- A Python dict with string keys, bindings in insertion order. -/
abbrev PyDict : Type := List (String × PyVal)

/-- `d[k]` lookup: the binding of `k`, or `none` (a `KeyError`). -/
def dictGet : PyDict → String → Option PyVal
  | [], _ => none
  | (k', v') :: rest, k => if k' = k then some v' else dictGet rest k

/-- `d[k] = v` assignment: replace an existing binding in place, keeping its
position, else append a new binding at the end. -/
def dictSet : PyDict → String → PyVal → PyDict
  | [], k, v => [(k, v)]
  | (k', v') :: rest, k, v =>
    if k' = k then (k, v) :: rest else (k', v') :: dictSet rest k v

/-- The object heap: dict objects addressed by allocation index. Mutation of
one object is visible through every reference to that address. -/
structure Heap where
  objs : List PyDict
deriving DecidableEq, Repr

/-- Dereference an address (out-of-range reads give the empty dict). -/
def Heap.get (h : Heap) (r : Nat) : PyDict := h.objs.getD r []

/-- Overwrite the object at an address. -/
def Heap.set (h : Heap) (r : Nat) (d : PyDict) : Heap := ⟨h.objs.set r d⟩

/-- Allocate a new object, returning its fresh address. -/
def Heap.alloc (h : Heap) (d : PyDict) : Heap × Nat :=
  (⟨h.objs ++ [d]⟩, h.objs.length)

/-- `copy.deepcopy(metrics)` for a list of dict objects: each element is
copied to a freshly allocated object (for a list whose elements are distinct
objects, exactly `deepcopy`'s behaviour; duplicated references yield copies
with identical contents). -/
def deepcopyDicts : Heap → List Nat → Heap × List Nat
  | h, [] => (h, [])
  | h, r :: rest =>
    let p := h.alloc (h.get r)
    let q := deepcopyDicts p.1 rest
    (q.1, p.2 :: q.2)

/-- The loop of `get_all_distance_matrices`: for each position, read
`'metric'`, `'metric_param'` and `'max_below_best'` from the ORIGINAL
element (the source iterates over `metrics`), query the distance matrix, and
assign it under `'distance_matrix'` on the corresponding copied dict. A
missing key is the `KeyError` the subscript would raise. -/
def gadmLoop (best_dist : PyVal → PyVal → PyVal → PyVal) :
    Heap → List (Nat × Nat) → Heap × Except String Unit
  | h, [] => (h, .ok ())
  | h, (orig, cp) :: rest =>
    match dictGet (h.get orig) "metric", dictGet (h.get orig) "metric_param",
        dictGet (h.get orig) "max_below_best" with
    | some m, some p, some b =>
      gadmLoop best_dist
        (h.set cp (dictSet (h.get cp) "distance_matrix" (best_dist m p b))) rest
    | _, _, _ => (h, .error "KeyError")

/-- `ModelSelector.get_all_distance_matrices` from `model_selectors.py`:
deep-copies `metrics`, then per element queries `get_best_dist` (abstracted
as `best_dist` over the three configuration values passed to it, since it
only reads the database) and stores the result under `'distance_matrix'` on
the copy; returns the list of copies. -/
def get_all_distance_matrices (best_dist : PyVal → PyVal → PyVal → PyVal)
    (h : Heap) (metrics : List Nat) : Heap × Except String (List Nat) :=
  let p := deepcopyDicts h metrics
  let q := gadmLoop best_dist p.1 (metrics.zip p.2)
  (q.1, q.2.map (fun _ => p.2))

theorem Heap.get_alloc_lt (h : Heap) (d : PyDict) (r : Nat)
    (hr : r < h.objs.length) : (h.alloc d).1.get r = h.get r := by
  simp only [Heap.alloc, Heap.get]
  exact List.getD_append _ _ _ _ hr

theorem Heap.get_set_ne (h : Heap) (r r' : Nat) (d : PyDict) (hne : r ≠ r') :
    (h.set r' d).get r = h.get r := by
  simp only [Heap.set, Heap.get, List.getD_eq_getElem?_getD]
  rw [List.getElem?_set_ne (Ne.symm hne)]

theorem Heap.get_set_self (h : Heap) (r : Nat) (d : PyDict)
    (hr : r < h.objs.length) : (h.set r d).get r = d := by
  simp only [Heap.set, Heap.get, List.getD_eq_getElem?_getD]
  rw [List.getElem?_set_self hr]
  rfl

theorem Heap.length_set (h : Heap) (r : Nat) (d : PyDict) :
    (h.set r d).objs.length = h.objs.length := by
  simp [Heap.set]

theorem deepcopyDicts_spec (rs : List Nat) : ∀ h : Heap,
    (∀ r ∈ rs, r < h.objs.length) →
    (deepcopyDicts h rs).2 = List.range' h.objs.length rs.length ∧
    (deepcopyDicts h rs).1.objs = h.objs ++ rs.map (h.get ·) := by
  induction rs with
  | nil => intro h _; simp [deepcopyDicts]
  | cons r rest ih =>
    intro h hv
    have hr : r < h.objs.length := hv r (List.mem_cons_self _ _)
    have hlen1 : (h.alloc (h.get r)).1.objs.length = h.objs.length + 1 := by
      simp [Heap.alloc]
    have hv1 : ∀ x ∈ rest, x < (h.alloc (h.get r)).1.objs.length := by
      intro x hx
      rw [hlen1]
      exact Nat.lt_succ_of_lt (hv x (List.mem_cons_of_mem _ hx))
    rcases ih (h.alloc (h.get r)).1 hv1 with ⟨hcopies, hobjs⟩
    constructor
    · show (h.alloc (h.get r)).2 :: (deepcopyDicts (h.alloc (h.get r)).1 rest).2 = _
      rw [hcopies, hlen1]
      rw [List.length_cons, List.range'_succ]
      rfl
    · show (deepcopyDicts (h.alloc (h.get r)).1 rest).1.objs = _
      rw [hobjs]
      have hmap : rest.map ((h.alloc (h.get r)).1.get ·) = rest.map (h.get ·) :=
        List.map_congr_left (fun x hx =>
          Heap.get_alloc_lt h (h.get r) x (hv x (List.mem_cons_of_mem _ hx)))
      rw [hmap]
      show h.objs ++ [h.get r] ++ rest.map (h.get ·) = h.objs ++ (r :: rest).map (h.get ·)
      rw [List.append_assoc]
      rfl

theorem gadmLoop_frame (bd : PyVal → PyVal → PyVal → PyVal)
    (pairs : List (Nat × Nat)) : ∀ (h : Heap) (r : Nat),
    (∀ p ∈ pairs, r ≠ p.2) → ((gadmLoop bd h pairs).1).get r = h.get r := by
  induction pairs with
  | nil => intro h r _; rfl
  | cons pr rest ih =>
    intro h r hr
    obtain ⟨orig, cp⟩ := pr
    show ((match dictGet (h.get orig) "metric", dictGet (h.get orig) "metric_param",
        dictGet (h.get orig) "max_below_best" with
      | some m, some p, some b =>
        gadmLoop bd (h.set cp (dictSet (h.get cp) "distance_matrix" (bd m p b))) rest
      | _, _, _ => (h, Except.error "KeyError")).1).get r = h.get r
    rcases hm : dictGet (h.get orig) "metric" with _ | m <;>
      rcases hp : dictGet (h.get orig) "metric_param" with _ | p <;>
      rcases hb : dictGet (h.get orig) "max_below_best" with _ | b <;>
      simp only []
    rw [ih _ r (fun q hq => hr q (List.mem_cons_of_mem _ hq))]
    exact Heap.get_set_ne h r cp _ (hr (orig, cp) (List.mem_cons_self _ _))

theorem gadmLoop_length (bd : PyVal → PyVal → PyVal → PyVal)
    (pairs : List (Nat × Nat)) : ∀ h : Heap,
    ((gadmLoop bd h pairs).1).objs.length = h.objs.length := by
  induction pairs with
  | nil => intro h; rfl
  | cons pr rest ih =>
    intro h
    obtain ⟨orig, cp⟩ := pr
    show ((match dictGet (h.get orig) "metric", dictGet (h.get orig) "metric_param",
        dictGet (h.get orig) "max_below_best" with
      | some m, some p, some b =>
        gadmLoop bd (h.set cp (dictSet (h.get cp) "distance_matrix" (bd m p b))) rest
      | _, _, _ => (h, Except.error "KeyError")).1).objs.length = h.objs.length
    rcases hm : dictGet (h.get orig) "metric" with _ | m <;>
      rcases hp : dictGet (h.get orig) "metric_param" with _ | p <;>
      rcases hb : dictGet (h.get orig) "max_below_best" with _ | b <;>
      simp only []
    rw [ih]
    exact Heap.length_set h cp _

theorem gadmLoop_cons (bd : PyVal → PyVal → PyVal → PyVal) (h : Heap)
    (orig cp : Nat) (rest : List (Nat × Nat)) :
    gadmLoop bd h ((orig, cp) :: rest) =
      match dictGet (h.get orig) "metric", dictGet (h.get orig) "metric_param",
          dictGet (h.get orig) "max_below_best" with
      | some m, some p, some b =>
        gadmLoop bd (h.set cp (dictSet (h.get cp) "distance_matrix" (bd m p b))) rest
      | _, _, _ => (h, .error "KeyError") := rfl

theorem gadmLoop_ok (bd : PyVal → PyVal → PyVal → PyVal)
    (pairs : List (Nat × Nat)) (B : Nat) : ∀ h : Heap,
    (∀ p ∈ pairs, p.1 < B ∧ B ≤ p.2 ∧ p.2 < h.objs.length) →
    (pairs.map (·.2)).Nodup →
    (gadmLoop bd h pairs).2 = .ok () →
    ∀ p ∈ pairs, ∃ m pp b,
      dictGet (h.get p.1) "metric" = some m ∧
      dictGet (h.get p.1) "metric_param" = some pp ∧
      dictGet (h.get p.1) "max_below_best" = some b ∧
      ((gadmLoop bd h pairs).1).get p.2 =
        dictSet (h.get p.2) "distance_matrix" (bd m pp b) := by
  induction pairs with
  | nil => intro h _ _ _ p hp; exact absurd hp (List.not_mem_nil p)
  | cons pr rest ih =>
    obtain ⟨orig, cp⟩ := pr
    intro h hv hnd hok p hp
    rw [gadmLoop_cons] at hok ⊢
    rcases hm : dictGet (h.get orig) "metric" with _ | m <;>
      rcases hp2 : dictGet (h.get orig) "metric_param" with _ | pp2 <;>
      rcases hb2 : dictGet (h.get orig) "max_below_best" with _ | b2 <;>
      rw [hm, hp2, hb2] at hok <;> simp only [] at hok ⊢ <;>
      try exact absurd hok (by simp)
    -- the remaining case: all three keys present
    · have hcpB : B ≤ cp := (hv (orig, cp) (List.mem_cons_self _ _)).2.1
      have hcplt : cp < h.objs.length := (hv (orig, cp) (List.mem_cons_self _ _)).2.2
      have hcpfresh : ∀ q ∈ rest, cp ≠ q.2 := by
        intro q hq
        have : cp ∉ rest.map (·.2) := (List.nodup_cons.mp hnd).1
        exact fun hcq => this (hcq ▸ List.mem_map.mpr ⟨q, hq, rfl⟩)
      rcases List.mem_cons.mp hp with heq | hrest
      · subst heq
        refine ⟨m, pp2, b2, hm, hp2, hb2, ?_⟩
        rw [gadmLoop_frame bd rest _ cp hcpfresh]
        exact Heap.get_set_self h cp _ hcplt
      · have hq := hv p (List.mem_cons_of_mem _ hrest)
        have hp1ne : p.1 ≠ cp := fun hc => absurd (hc ▸ hq.1) (not_lt.mpr hcpB)
        have hp2ne : p.2 ≠ cp := by
          intro hc
          have : cp ∉ rest.map (·.2) := (List.nodup_cons.mp hnd).1
          exact this (hc ▸ List.mem_map.mpr ⟨p, hrest, rfl⟩)
        have hv' : ∀ q ∈ rest, q.1 < B ∧ B ≤ q.2 ∧
            q.2 < (h.set cp (dictSet (h.get cp) "distance_matrix" (bd m pp2 b2))).objs.length := by
          intro q hq
          rcases hv q (List.mem_cons_of_mem _ hq) with ⟨h1, h2, h3⟩
          exact ⟨h1, h2, by rw [Heap.length_set]; exact h3⟩
        rcases ih _ hv' (List.nodup_cons.mp hnd).2 hok p hrest with
          ⟨m', pp', b', hm', hp'', hb', hget⟩
        rw [Heap.get_set_ne h p.1 cp _ hp1ne] at hm' hp'' hb'
        rw [Heap.get_set_ne h p.2 cp _ hp2ne] at hget
        exact ⟨m', pp', b', hm', hp'', hb', hget⟩

/-- C10 amended: `get_all_distance_matrices` never mutates an object that
existed before the call — in particular the `metrics` list and every dict it
references are unchanged — and on success returns fresh addresses, one per
input element, the i-th holding the i-th input dict with its
`'distance_matrix'` key set to the queried matrix; every original binding
except a pre-existing `'distance_matrix'` one is preserved. -/
theorem gadm_frame_and_result (bd : PyVal → PyVal → PyVal → PyVal)
    (h h2 : Heap) (metrics : List Nat) (res : Except String (List Nat))
    (hv : ∀ r ∈ metrics, r < h.objs.length)
    (hrun : get_all_distance_matrices bd h metrics = (h2, res)) :
    (∀ r, r < h.objs.length → h2.get r = h.get r) ∧
    (∀ out, res = .ok out →
      out.length = metrics.length ∧
      (∀ i, (hi : i < out.length) → h.objs.length ≤ out[i]) ∧
      (∀ i, (hi : i < metrics.length) → (hi2 : i < out.length) → ∃ m p b,
        dictGet (h.get (metrics[i])) "metric" = some m ∧
        dictGet (h.get (metrics[i])) "metric_param" = some p ∧
        dictGet (h.get (metrics[i])) "max_below_best" = some b ∧
        h2.get (out[i]) = dictSet (h.get (metrics[i])) "distance_matrix" (bd m p b))) := by
  obtain ⟨hcopies, hobjs⟩ := deepcopyDicts_spec metrics h hv
  simp only [get_all_distance_matrices] at hrun
  rw [Prod.mk.injEq] at hrun
  obtain ⟨hh2, hres⟩ := hrun
  have hlenc : (deepcopyDicts h metrics).2.length = metrics.length := by
    rw [hcopies, List.length_range']
  have h1len : (deepcopyDicts h metrics).1.objs.length =
      h.objs.length + metrics.length := by
    rw [hobjs, List.length_append, List.length_map]
  have hPP : ∀ p ∈ metrics.zip (deepcopyDicts h metrics).2,
      p.1 < h.objs.length ∧ h.objs.length ≤ p.2 ∧
      p.2 < (deepcopyDicts h metrics).1.objs.length := by
    intro p hp
    obtain ⟨hp1, hp2⟩ := List.of_mem_zip hp
    rw [hcopies] at hp2
    refine ⟨hv _ hp1, (List.mem_range'_1.mp hp2).1, ?_⟩
    rw [h1len]
    exact (List.mem_range'_1.mp hp2).2
  have hnd : ((metrics.zip (deepcopyDicts h metrics).2).map (·.2)).Nodup := by
    rw [show (fun x : Nat × Nat => x.2) = Prod.snd from rfl]
    rw [List.map_snd_zip _ _ (le_of_eq hlenc)]
    rw [hcopies]
    exact List.nodup_range' _ _
  have hget1 : ∀ r, r < h.objs.length →
      (deepcopyDicts h metrics).1.get r = h.get r := by
    intro r hr
    simp only [Heap.get]
    rw [hobjs]
    exact List.getD_append _ _ _ _ hr
  have hci : ∀ i, i < metrics.length →
      (deepcopyDicts h metrics).2[i]? = some (h.objs.length + i) := by
    intro i hi
    rw [show (deepcopyDicts h metrics).2 =
        List.range' h.objs.length metrics.length from hcopies]
    rw [List.getElem?_eq_getElem (by rw [List.length_range']; exact hi)]
    rw [List.getElem_range']
    simp
  constructor
  · intro r hr
    rw [← hh2]
    rw [gadmLoop_frame bd _ _ r
      (fun p hp => Nat.ne_of_lt (lt_of_lt_of_le hr (hPP p hp).2.1))]
    exact hget1 r hr
  · intro out hout
    rw [hout] at hres
    rcases hq : (gadmLoop bd (deepcopyDicts h metrics).1
        (metrics.zip (deepcopyDicts h metrics).2)).2 with s | u
    · rw [hq] at hres
      simp [Except.map] at hres
    · obtain ⟨⟩ := u
      rw [hq] at hres
      simp only [Except.map] at hres
      have hoc : (deepcopyDicts h metrics).2 = out := by
        exact Except.ok.inj hres
      subst hoc
      refine ⟨hlenc, ?_, ?_⟩
      · intro i hi
        have hilt : i < metrics.length := by rw [← hlenc]; exact hi
        have h1q := hci i hilt
        rw [List.getElem?_eq_getElem hi] at h1q
        rw [Option.some.inj h1q]
        exact Nat.le_add_right _ _
      · intro i hi hi2
        have hpi : i < (metrics.zip (deepcopyDicts h metrics).2).length := by
          rw [List.length_zip, hlenc]
          simpa using hi
        have hpair : (metrics.zip (deepcopyDicts h metrics).2)[i] =
            (metrics[i], (deepcopyDicts h metrics).2[i]) := List.getElem_zip
        have hmem : (metrics[i], (deepcopyDicts h metrics).2[i]) ∈
            metrics.zip (deepcopyDicts h metrics).2 := hpair ▸ List.getElem_mem hpi
        obtain ⟨m, pp, b, hm, hp, hb, hget⟩ :=
          gadmLoop_ok bd _ h.objs.length _ hPP hnd hq _ hmem
        simp only [] at hm hp hb hget
        rw [hget1 _ (hv _ (List.getElem_mem hi))] at hm hp hb
        have hceq : (deepcopyDicts h metrics).2[i] = h.objs.length + i := by
          have h1q := hci i hi
          rw [List.getElem?_eq_getElem hi2] at h1q
          exact Option.some.inj h1q
        have hc1 : (deepcopyDicts h metrics).1.get ((deepcopyDicts h metrics).2[i]) =
            h.get (metrics[i]) := by
          rw [hceq]
          simp only [Heap.get]
          rw [hobjs, List.getD_eq_getElem?_getD,
            List.getElem?_append_right (Nat.le_add_right _ _), Nat.add_sub_cancel_left]
          rw [List.getElem?_map, List.getElem?_eq_getElem hi]
          rfl
        rw [hc1] at hget
        exact ⟨m, pp, b, hm, hp, hb, by rw [← hh2]; exact hget⟩

/-- A concrete metric-configuration dict that already carries a
`'distance_matrix'` binding. -/
def cexDict : PyDict :=
  [("metric", PyVal.str "precision"), ("metric_param", PyVal.str "300_abs"),
   ("max_below_best", PyVal.int 1), ("distance_matrix", PyVal.int 99)]

/-- A heap holding only `cexDict`. -/
def cexHeap : Heap := ⟨[cexDict]⟩

/-- A `get_best_dist` stand-in returning a fixed matrix value. -/
def cexBestDist : PyVal → PyVal → PyVal → PyVal := fun _ _ _ => PyVal.int 0

/-- C10 fails as stated: on a metrics dict that already has a
`'distance_matrix'` binding (value 99), the returned copy does not preserve
that original value — `get_all_distance_matrices` overwrites it with the
queried matrix, so not all original keys and values are preserved. -/
theorem gadm_preservation_counterexample :
    (get_all_distance_matrices cexBestDist cexHeap [0]).2 = .ok [1] ∧
    dictGet (cexHeap.get 0) "distance_matrix" = some (PyVal.int 99) ∧
    dictGet ((get_all_distance_matrices cexBestDist cexHeap [0]).1.get 1)
        "distance_matrix" = some (PyVal.int 0) ∧
    some (PyVal.int 0) ≠ some (PyVal.int 99) :=
  ⟨rfl, rfl, rfl, by decide⟩

theorem gadm_frame_and_result_witness :
    (∀ r ∈ [0], r < cexHeap.objs.length) ∧
    get_all_distance_matrices cexBestDist cexHeap [0] =
      (⟨[cexDict, dictSet cexDict "distance_matrix" (PyVal.int 0)]⟩, .ok [1]) ∧
    ((∀ r, r < cexHeap.objs.length →
        (Heap.mk [cexDict, dictSet cexDict "distance_matrix" (PyVal.int 0)]).get r =
          cexHeap.get r) ∧
     (∀ out, (.ok [1] : Except String (List Nat)) = .ok out →
        out.length = ([0] : List Nat).length ∧
        (∀ i, (hi : i < out.length) → cexHeap.objs.length ≤ out[i]) ∧
        (∀ i, (hi : i < ([0] : List Nat).length) → (hi2 : i < out.length) → ∃ m p b,
          dictGet (cexHeap.get (([0] : List Nat)[i])) "metric" = some m ∧
          dictGet (cexHeap.get (([0] : List Nat)[i])) "metric_param" = some p ∧
          dictGet (cexHeap.get (([0] : List Nat)[i])) "max_below_best" = some b ∧
          (Heap.mk [cexDict, dictSet cexDict "distance_matrix" (PyVal.int 0)]).get (out[i]) =
            dictSet (cexHeap.get (([0] : List Nat)[i])) "distance_matrix"
              (cexBestDist m p b)))) :=
  ⟨by decide, by rfl,
   gadm_frame_and_result cexBestDist cexHeap
     ⟨[cexDict, dictSet cexDict "distance_matrix" (PyVal.int 0)]⟩ [0] (.ok [1])
     (by decide) (by rfl)⟩
